import Mathlib

/-!
Verification of the transaction extraction and categorization pipeline of the
invest-app repository.

The development shallowly embeds, over `List Char` / `String` and `ℚ`:

* the local line parser of `src/utils/transactionProcessor.ts`
  (`parseTransactionText`, `parseBankDate`, `getMonthNumber`,
  `extractDescriptionAndAmount`, `cleanDescription`),
* the keyword classifier of `src/lib/ai/classifier.ts`
  (`AIClassifier.classifyTransaction` and its training table),
* the AI-response validation and aggregation steps of the
  `processTransactionText` route handler (entry validation, sign/category/
  date/confidence normalization, per-category summary and total), and
* the JSON-extraction step of the same handler (greedy brace match, then
  `JSON.parse`), with a strict JSON syntax checker standing in for the
  success/failure behaviour of `JSON.parse`.

JavaScript semantics that matter here and how they are modelled:

* JS regexes are modelled by hand-rolled matchers that follow the concrete
  patterns of the source (leftmost match, alternatives in source order,
  greedy quantifiers where relevant).
* JS `String.prototype.includes` is exact, case-sensitive substring search.
* JS falsiness of the empty string, `undefined` and `0` is modelled with
  `Option` plus explicit emptiness / zero tests.
* JS numbers are modelled as exact rationals `ℚ`; `Math.round` rounds half
  toward positive infinity, i.e. `⌊x + 1/2⌋`.
* The current calendar year (`new Date().getFullYear()`) is an explicit
  parameter of the line parser.
-/

namespace InvestApp

/-! ## Character classes (JS regex classes over the inputs in scope) -/

/-- JS `\d`: an ASCII decimal digit. -/
def isDigitC (c : Char) : Bool := c.isDigit

/-- JS `\w`: ASCII letter, digit or underscore. -/
def isWordC (c : Char) : Bool := c.isAlphanum || c = '_'

/-- JS `\s` restricted to the whitespace that occurs in statement text:
space, tab, newline, carriage return, form feed, vertical tab. -/
def isWsC (c : Char) : Bool :=
  c = ' ' || c = '\t' || c = '\n' || c = '\r' || c = '\x0c' || c = '\x0b'

/-- A character matched by the JS class `[\d,]` of the amount pattern. -/
def isAmountC (c : Char) : Bool := isDigitC c || c = ','

/-! ## List-level string utilities -/

/-- Whether `pat` occurs at the head of `l` (exact, case-sensitive). -/
def prefOf : List Char → List Char → Bool
  | [], _ => true
  | _ :: _, [] => false
  | a :: as, b :: bs => a = b && prefOf as bs

/-- Whether `pat` occurs contiguously anywhere in `l`: the semantics of the
JS `String.prototype.includes` used throughout the source. -/
def substrOf (pat : List Char) : List Char → Bool
  | [] => pat.isEmpty
  | l@(_ :: t) => prefOf pat l || substrOf pat t

/-- Remove the first occurrence of `pat` from `l`, as JS
`String.prototype.replace` with a string pattern and empty replacement. -/
def removeFirstOcc (pat : List Char) : List Char → List Char
  | [] => []
  | l@(c :: t) => if prefOf pat l then l.drop pat.length else c :: removeFirstOcc pat t

/-- Split a list at every occurrence of the separator character, as JS
`String.prototype.split` with a single-character separator (an empty input
yields one empty field). -/
def splitOnC (sep : Char) : List Char → List (List Char) :=
  go []
where
  go (cur : List Char) : List Char → List (List Char)
    | [] => [cur.reverse]
    | c :: t => if c = sep then cur.reverse :: go [] t else go (c :: cur) t

/-- Leading-whitespace drop used by `trimmed`. -/
def dropWs (l : List Char) : List Char := l.dropWhile isWsC

/-- JS `String.prototype.trim` on character lists. -/
def trimL (l : List Char) : List Char := ((dropWs l).reverse.dropWhile isWsC).reverse

/-- JS `String.prototype.trim`. -/
def trimmed (s : String) : String := ⟨trimL s.data⟩

/-- JS `String.prototype.toLowerCase` (ASCII inputs only occur here). -/
def lowered (s : String) : String := ⟨s.data.map Char.toLower⟩

/-- JS `s.includes(pat)`. -/
def jsIncludes (s pat : String) : Bool := substrOf pat.data s.data

/-- Case-insensitive containment (used only to state claims about
"in any letter casing"). -/
def ciIncludes (s pat : String) : Bool := jsIncludes (lowered s) (lowered pat)

/-- JS `String(n)` for a natural number. -/
def natStr (n : ℕ) : String := Nat.repr n

/-- JS `s.padStart(2, '0')`. -/
def pad2 (s : String) : String :=
  if s.length = 0 then "00" else if s.length = 1 then "0" ++ s else s

/-- JS `s.padStart(3, '0')`. -/
def pad3 (s : String) : String :=
  if s.length = 0 then "000" else if s.length = 1 then "00" ++ s
  else if s.length = 2 then "0" ++ s else s

/-! ## Description normalizer (`cleanDescription`, part_008 lines 659-665) -/

/-- One pass of the global replacement `/\s+/g → " "`: every run of
whitespace becomes a single space (`prevWs` records whether the previous
character belonged to a run already emitted as a space). -/
def collapseWsAux : Bool → List Char → List Char
  | _, [] => []
  | prevWs, c :: t =>
    if isWsC c then
      if prevWs then collapseWsAux true t else ' ' :: collapseWsAux true t
    else c :: collapseWsAux false t

/-- JS `description.replace(/\s+/g, ' ')`. -/
def collapseWs (s : String) : String := ⟨collapseWsAux false s.data⟩

/-- The boilerplate alternatives of the anchored, case-insensitive prefix
regex of `cleanDescription`, in source order. -/
def BOILERPLATE : List String :=
  ["e:", "Contactless Interac purchase", "Visa Debit purchase", "Misc Payment",
   "Online Banking payment", "Transfer sent", "Payroll Deposit"]

/-- Case-insensitive anchored match of one alternative: drop it if it heads
the list. -/
def ciDropPref (pat : String) (l : List Char) : Option (List Char) :=
  if (l.take pat.data.length).map Char.toLower = pat.data.map Char.toLower then
    some (l.drop pat.data.length)
  else none

/-- JS `.replace(/^(e:|Contactless Interac purchase|...)/i, '')`: the first
alternative (in source order) that matches at the start is removed. -/
def dropBoilerplate (l : List Char) : List Char :=
  go BOILERPLATE
where
  go : List String → List Char
    | [] => l
    | p :: ps => match ciDropPref p l with
      | some rest => rest
      | none => go ps

/-- JS `.replace(/\d{4}$/, '')`: remove the last four characters when they
are all digits. -/
def dropTrailing4 (l : List Char) : List Char :=
  match l.reverse with
  | d1 :: d2 :: d3 :: d4 :: rest =>
    if isDigitC d1 && isDigitC d2 && isDigitC d3 && isDigitC d4 then rest.reverse else l
  | _ => l

/-- `cleanDescription` of `src/utils/transactionProcessor.ts`: collapse
whitespace runs, strip one boilerplate prefix case-insensitively, strip a
trailing run of four digits, and trim. There is no non-emptiness fallback. -/
def cleanDescription (description : String) : String :=
  trimmed ⟨dropTrailing4 (dropBoilerplate (collapseWs description).data)⟩

/-! ## Line parser (`src/utils/transactionProcessor.ts`) -/

/-- An unclassified record produced by the line parser
(`RawTransaction` of the source). -/
structure RawTransaction where
  date : String
  description : String
  amount : ℚ
  deriving Repr, DecidableEq

/-- The short-date alternative `\d{1,2}\s+\w{3}` of `transactionPattern`,
anchored at `l` after the digit prefix `pre`: a nonempty greedy whitespace
run followed by three word characters. Returns the matched text. -/
def wsW3 (pre : List Char) (l : List Char) : Option (List Char) :=
  match l with
  | c :: t =>
    if isWsC c then
      let run := t.takeWhile isWsC
      match t.dropWhile isWsC with
      | w1 :: w2 :: w3 :: _ =>
        if isWordC w1 && isWordC w2 && isWordC w3 then
          some (pre ++ (c :: run) ++ [w1, w2, w3])
        else none
      | _ => none
    else none
  | [] => none

/-- `\d{1,2}\s+\w{3}` anchored at `l` (greedy: the two-digit parse is tried
before the one-digit one, as a JS regex engine does). -/
def altShortDate (l : List Char) : Option (List Char) :=
  match l with
  | a :: rest =>
    if isDigitC a then
      match rest with
      | b :: rest2 =>
        if isDigitC b then (wsW3 [a, b] rest2).orElse (fun _ => wsW3 [a] rest)
        else wsW3 [a] rest
      | [] => none
    else none
  | [] => none

/-- `\d{4}-\d{2}-\d{2}` anchored at `l`. -/
def altIsoDate (l : List Char) : Option (List Char) :=
  match l with
  | y1 :: y2 :: y3 :: y4 :: '-' :: m1 :: m2 :: '-' :: d1 :: d2 :: _ =>
    if isDigitC y1 && isDigitC y2 && isDigitC y3 && isDigitC y4 &&
       isDigitC m1 && isDigitC m2 && isDigitC d1 && isDigitC d2 then
      some [y1, y2, y3, y4, '-', m1, m2, '-', d1, d2]
    else none
  | _ => none

/-- `\d{2}\/\d{2}\/\d{4}` anchored at `l`. -/
def altSlashDate (l : List Char) : Option (List Char) :=
  match l with
  | m1 :: m2 :: '/' :: d1 :: d2 :: '/' :: y1 :: y2 :: y3 :: y4 :: _ =>
    if isDigitC m1 && isDigitC m2 && isDigitC d1 && isDigitC d2 &&
       isDigitC y1 && isDigitC y2 && isDigitC y3 && isDigitC y4 then
      some [m1, m2, '/', d1, d2, '/', y1, y2, y3, y4]
    else none
  | _ => none

/-- `transactionPattern = /(\d{1,2}\s+\w{3}|\d{4}-\d{2}-\d{2}|\d{2}\/\d{2}\/\d{4})/`
anchored at `l`: alternatives are tried in source order. -/
def dateMatchAt (l : List Char) : Option (List Char) :=
  ((altShortDate l).orElse fun _ => altIsoDate l).orElse fun _ => altSlashDate l

/-- JS `line.match(transactionPattern)`: the match at the leftmost position
where some alternative matches (`dateMatch[0]` of the source). -/
def firstDateMatch : List Char → Option (List Char)
  | [] => none
  | l@(_ :: t) => (dateMatchAt l).orElse fun _ => firstDateMatch t

/-- The month-name table of `getMonthNumber` (exact-case keys); any other
string falls back to `1` via `|| 1`. -/
def getMonthNumber (monthStr : String) : ℕ :=
  if monthStr = "Jan" then 1 else if monthStr = "Feb" then 2
  else if monthStr = "Mar" then 3 else if monthStr = "Apr" then 4
  else if monthStr = "May" then 5 else if monthStr = "Jun" then 6
  else if monthStr = "Jul" then 7 else if monthStr = "Aug" then 8
  else if monthStr = "Sep" then 9 else if monthStr = "Oct" then 10
  else if monthStr = "Nov" then 11 else if monthStr = "Dec" then 12
  else 1

/-- `parseBankDate` of the source, with the current calendar year
(`new Date().getFullYear()`) as an explicit parameter.
The slash branch destructures exactly three fields; for the regex-produced
inputs that reach it this is always the case, so other shapes (which JS
would render with `undefined`) are returned unchanged. -/
def parseBankDate (currentYear : ℕ) (dateStr : String) : String :=
  if dateStr.data.contains '-' then dateStr
  else if dateStr.data.contains '/' then
    match splitOnC '/' dateStr.data with
    | [month, day, year] =>
      String.mk year ++ "-" ++ pad2 ⟨month⟩ ++ "-" ++ pad2 ⟨day⟩
    | _ => dateStr
  else
    match splitOnC ' ' dateStr.data with
    | [day, month] =>
      natStr currentYear ++ "-" ++ pad2 (natStr (getMonthNumber ⟨month⟩)) ++ "-" ++ pad2 ⟨day⟩
    | _ => dateStr

/-- All matches of the global amount regex `/[\d,]+\.\d{2}/g`, leftmost and
non-overlapping, each greedy. A candidate starts at a `[\d,]` character; its
maximal `[\d,]` run must be followed by `.` and two digits (no backtracking
can help, since `.` is not a `[\d,]` character, and every start inside the
run reaches the same run end). On failure the scan resumes after the run, on
success after the matched text. Fuel decreases on every step and is
initialized to the input length, which the scan position strictly exceeds. -/
def findAmountsF : ℕ → List Char → List (List Char)
  | 0, _ => []
  | _, [] => []
  | fuel + 1, c :: t =>
    if isAmountC c then
      let run := (c :: t).takeWhile isAmountC
      match (c :: t).dropWhile isAmountC with
      | '.' :: d1 :: d2 :: rest2 =>
        if isDigitC d1 && isDigitC d2 then
          (run ++ ['.', d1, d2]) :: findAmountsF fuel rest2
        else findAmountsF fuel ((c :: t).dropWhile isAmountC)
      | after => findAmountsF fuel after
    else findAmountsF fuel t

/-- JS `cleanLine.match(/[\d,]+\.\d{2}/g)` (a `[]` result models `null`). -/
def findAmounts (l : List Char) : List (List Char) := findAmountsF (l.length + 1) l

/-- Digits-to-number accumulation used by the amount parser. -/
def natOfDigits (l : List Char) : ℕ :=
  l.foldl (fun n c => n * 10 + (c.toNat - '0'.toNat)) 0

/-- JS `parseFloat(amountStr.replace(/,/g, ''))` on a token produced by the
amount regex: strip commas, then the token is `digits "." d1 d2`. -/
def parseAmountToken (l : List Char) : ℚ :=
  let cleaned := l.filter (fun c => c ≠ ',')
  let intPart := cleaned.takeWhile isDigitC
  match cleaned.dropWhile isDigitC with
  | '.' :: d1 :: d2 :: _ =>
    (natOfDigits intPart : ℚ) + (natOfDigits [d1, d2] : ℚ) / 100
  | _ => (natOfDigits intPart : ℚ)

/-- The three anchored date-strips at the head of
`extractDescriptionAndAmount`, applied in source order, then `trim`. -/
def stripLineDates (line : String) : String :=
  let s1 : List Char :=
    match altShortDate line.data with
    | some m => line.data.drop m.length
    | none => line.data
  let s2 : List Char :=
    match altIsoDate s1 with
    | some m => s1.drop m.length
    | none => s1
  let s3 : List Char :=
    match altSlashDate s2 with
    | some m => s2.drop m.length
    | none => s2
  trimmed ⟨s3⟩

/-- The debit-indicator test of `extractDescriptionAndAmount`: exact-case
(hence case-sensitive) substring containment of the four keywords. -/
def hasDebitIndicator (cleanLine : String) : Bool :=
  jsIncludes cleanLine "Withdrawal" || jsIncludes cleanLine "Debit" ||
  jsIncludes cleanLine "Purchase" || jsIncludes cleanLine "Payment"

/-- `extractDescriptionAndAmount` of the source: strip a leading date token,
take the last amount-pattern match as the amount (negated when a debit
indicator occurs in the stripped line), and remove the first occurrence of
that amount text from the line to obtain the raw description. -/
def extractDescriptionAndAmount (line : String) : String × ℚ :=
  let cleanLine := stripLineDates line
  match (findAmounts cleanLine.data).getLast? with
  | some amountStr =>
    let mag := parseAmountToken amountStr
    let description := trimmed ⟨removeFirstOcc amountStr cleanLine.data⟩
    let amount := if hasDebitIndicator cleanLine then -mag else mag
    (description, amount)
  | none => (cleanLine, 0)

/-- `parseTransactionText` of the source: split into lines, trim each, skip
blank/header lines, keep lines with a date match, build records via
`parseBankDate` / `extractDescriptionAndAmount` / `cleanDescription` when
the description is truthy, and finally drop zero amounts. -/
def parseTransactionText (currentYear : ℕ) (text : String) : List RawTransaction :=
  let lines := (splitOnC '\n' text.data).map (fun l => trimmed ⟨l⟩)
  let step := fun (line : String) =>
    if line = "" || jsIncludes line "Date" || jsIncludes line "Description" ||
       jsIncludes line "Balance" then none
    else
      match firstDateMatch line.data with
      | some dm =>
        let date := parseBankDate currentYear ⟨dm⟩
        let (description, amount) := extractDescriptionAndAmount line
        if description ≠ "" then
          some { date := date, description := cleanDescription description, amount := amount }
        else none
      | none => none
  (lines.filterMap step).filter (fun t => t.amount ≠ 0)

/-! ## Keyword classifier (`src/lib/ai/classifier.ts`) -/

/-- A training entry of the classifier table. -/
structure TrainingData where
  description : String
  category : String
  keywords : List String
  deriving Repr, DecidableEq

/-- The classification result (the advisory `reasoning` string of the source
is not modelled; no claim refers to it). -/
structure ClassificationResult where
  category : String
  confidence : ℚ
  deriving Repr, DecidableEq

/-- `TRAINING_DATA` of `src/lib/ai/classifier.ts`, in declaration order. -/
def TRAINING_DATA : List TrainingData := [
  ⟨"rent payment", "Living Expenses", ["rent", "rental", "apartment", "condo"]⟩,
  ⟨"mortgage payment", "Living Expenses", ["mortgage", "home loan", "property payment"]⟩,
  ⟨"hydro bill", "Living Expenses", ["hydro", "electricity", "electric", "power"]⟩,
  ⟨"internet service", "Living Expenses", ["internet", "wifi", "broadband", "rogers", "bell", "telus"]⟩,
  ⟨"phone bill", "Living Expenses", ["phone", "mobile", "cellular", "wireless"]⟩,
  ⟨"insurance premium", "Living Expenses", ["insurance", "premium", "coverage"]⟩,
  ⟨"property tax", "Living Expenses", ["property tax", "municipal tax", "real estate tax"]⟩,
  ⟨"supermarket purchase", "Groceries", ["supermarket", "grocery", "food store"]⟩,
  ⟨"safeway", "Groceries", ["safeway", "sobeys", "metro", "loblaws"]⟩,
  ⟨"walmart groceries", "Groceries", ["walmart", "costco", "no frills", "freshco"]⟩,
  ⟨"farmers market", "Groceries", ["farmers market", "fresh produce", "organic"]⟩,
  ⟨"restaurant dinner", "Restaurants", ["restaurant", "dining", "cafe", "bistro"]⟩,
  ⟨"fast food", "Restaurants", ["mcdonald", "burger king", "subway", "kfc"]⟩,
  ⟨"coffee shop", "Restaurants", ["starbucks", "tim hortons", "coffee", "cafe"]⟩,
  ⟨"food delivery", "Restaurants", ["uber eats", "doordash", "skip dishes", "delivery"]⟩,
  ⟨"takeout", "Restaurants", ["takeout", "take-out", "pickup", "order"]⟩,
  ⟨"gas station", "Car", ["gas", "fuel", "petrol", "gasoline"]⟩,
  ⟨"shell", "Car", ["shell", "esso", "petro-canada", "chevron"]⟩,
  ⟨"car insurance", "Car", ["auto insurance", "car insurance", "vehicle insurance"]⟩,
  ⟨"car repair", "Car", ["auto repair", "mechanic", "garage", "service"]⟩,
  ⟨"parking", "Car", ["parking", "meter", "garage parking", "lot"]⟩,
  ⟨"car wash", "Car", ["car wash", "auto wash", "detailing"]⟩,
  ⟨"movie theater", "Entertainment", ["cinema", "movie", "theater", "film"]⟩,
  ⟨"streaming service", "Entertainment", ["netflix", "spotify", "amazon prime", "disney"]⟩,
  ⟨"concert tickets", "Entertainment", ["concert", "show", "tickets", "event"]⟩,
  ⟨"gaming", "Entertainment", ["steam", "playstation", "xbox", "nintendo"]⟩,
  ⟨"books", "Entertainment", ["bookstore", "kindle", "chapters", "library"]⟩,
  ⟨"atm withdrawal", "Miscellaneous", ["atm", "cash", "withdrawal"]⟩,
  ⟨"bank fee", "Miscellaneous", ["fee", "charge", "service charge", "overdraft"]⟩,
  ⟨"transfer", "Miscellaneous", ["transfer", "e-transfer", "wire"]⟩,
  ⟨"pharmacy", "Miscellaneous", ["pharmacy", "drugstore", "prescription", "medical"]⟩]

/-- JS `normalizedDesc.split(/\s+/)` for a trimmed input: the empty string
yields the single empty token `[""]`; otherwise the maximal nonempty runs of
non-whitespace characters, in order. -/
def splitWsTokens (s : String) : List String :=
  if s = "" then [""] else (go [] s.data).map (fun l => ⟨l⟩)
where
  go (cur : List Char) : List Char → List (List Char)
    | [] => if cur = [] then [] else [cur.reverse]
    | c :: t =>
      if isWsC c then
        if cur = [] then go [] t else cur.reverse :: go [] t
      else go (c :: cur) t

/-- The score one training entry contributes to its category for the
normalized description `norm` with token list `words`: `+0.9` for the
example phrase as a substring, `+0.7` per keyword substring, and `+0.3` per
(token, keyword) pair where one is a substring of the other. -/
def entryScore (norm : String) (words : List String) (td : TrainingData) : ℚ :=
  (if jsIncludes norm (lowered td.description) then (9 : ℚ) / 10 else 0)
  + ((td.keywords.map (fun k =>
      if jsIncludes norm (lowered k) then (7 : ℚ) / 10 else 0)).sum)
  + ((words.map (fun w =>
      (td.keywords.map (fun k =>
        if jsIncludes (lowered k) w || jsIncludes w (lowered k) then (3 : ℚ) / 10 else 0)).sum)).sum)

/-- First-occurrence deduplication: the iteration order of the JS `Map`
`categoryScores`, whose keys are inserted in training-table order. -/
def firstOccurrences (seen : List String) : List String → List String
  | [] => []
  | c :: t =>
    if seen.contains c then firstOccurrences seen t
    else c :: firstOccurrences (c :: seen) t

/-- The category keys of `categoryScores` in insertion order. -/
def categoryOrder : List String := firstOccurrences [] (TRAINING_DATA.map (·.category))

/-- The accumulated score of one category: the sum of the entry scores of
its training entries (the `if (score > 0)` guard of the source only skips
adding zero). -/
def categoryScore (norm : String) (words : List String) (cat : String) : ℚ :=
  ((TRAINING_DATA.filter (fun td => td.category = cat)).map (entryScore norm words)).sum

/-- The `(category, score)` pairs in `Map` iteration order. -/
def scoredCategories (norm : String) : List (String × ℚ) :=
  categoryOrder.map (fun c => (c, categoryScore norm (splitWsTokens norm) c))

/-- The best-category fold of the source: start from
`('Miscellaneous', 0)` and replace the current best on a strictly larger
score, so ties keep the earlier category. -/
def pickBest (l : List (String × ℚ)) : String × ℚ :=
  l.foldl (fun best p => if p.2 > best.2 then p else best) ("Miscellaneous", 0)

/-- The winning score (`bestScore` of the source). -/
def winningScore (norm : String) : ℚ := (pickBest (scoredCategories norm)).2

/-- The confidence normalization of the source: `min(score / 2.0, 1.0)`
followed by the 0.7 / 0.4 floor. -/
def finalConfidence (score : ℚ) : ℚ :=
  let confidence := min (score / 2) 1
  if confidence > 1 / 2 then max confidence (7 / 10) else max confidence (2 / 5)

/-- The classifier body after normalization. -/
def classifyCore (norm : String) : ClassificationResult :=
  let best := pickBest (scoredCategories norm)
  { category := best.1, confidence := finalConfidence best.2 }

/-- `AIClassifier.classifyTransaction`: lower-case and trim the description,
score every category, pick the best, and normalize its score into a
confidence (over the static `TRAINING_DATA` table). -/
def classifyTransaction (description : String) : ClassificationResult :=
  classifyCore (trimmed (lowered description))

/-- The total keyword count of a category in the training table. -/
def keywordCount (cat : String) : ℕ :=
  ((TRAINING_DATA.filter (fun td => td.category = cat)).map (fun td => td.keywords.length)).sum

/-! ## AI response validator and aggregation (`processTransactionText`,
part_006 lines 211-283) -/

/-- `CATEGORIES` of the route handler. -/
def CATEGORIES : List String :=
  ["Living Expenses", "Groceries", "Restaurants", "Car", "Entertainment", "Miscellaneous"]

/-- A candidate entry of the parsed `transactions` array. `none` models an
absent (or, for `amount` and `confidence`, non-numeric) field. -/
structure RawEntry where
  id : Option String := none
  date : Option String := none
  description : Option String := none
  amount : Option ℚ := none
  category : Option String := none
  confidence : Option ℚ := none
  deriving Repr, DecidableEq

/-- A validated transaction record. -/
structure Transaction where
  id : String
  date : String
  description : String
  amount : ℚ
  category : String
  confidence : ℚ
  deriving Repr, DecidableEq

/-- JS truthiness of an optional string: `undefined` and `""` are falsy. -/
def jsTruthy : Option String → Bool
  | none => false
  | some s => s ≠ ""

/-- JS `Math.round`: round half toward positive infinity. -/
def jsRound (q : ℚ) : ℤ := ⌊q + 1 / 2⌋

/-- JS `Math.round(x * 100) / 100`. -/
def round2 (q : ℚ) : ℚ := (jsRound (q * 100) : ℚ) / 100

/-- The `^\d{4}-\d{2}-\d{2}$` test of the validator. -/
def dateFormatOk (s : String) : Bool :=
  match s.data with
  | [y1, y2, y3, y4, '-', m1, m2, '-', d1, d2] =>
    isDigitC y1 && isDigitC y2 && isDigitC y3 && isDigitC y4 &&
    isDigitC m1 && isDigitC m2 && isDigitC d1 && isDigitC d2
  | _ => false

/-- The synthesized id for the 0-based array position `i`:
`txn_` followed by `String(i + 1).padStart(3, '0')`. -/
def defaultId (i : ℕ) : String := "txn_" ++ pad3 (natStr (i + 1))

/-- The confidence normalization
`Math.min(Math.max(transaction.confidence || 0.8, 0.5), 1.0)`; the `||`
falls back to `0.8` when the field is absent or equals `0` (JS falsiness). -/
def normalizeConfidence (c : Option ℚ) : ℚ :=
  let base : ℚ := match c with
    | some v => if v ≠ 0 then v else 4 / 5
    | none => 4 / 5
  min (max base (1 / 2)) 1

/-- The sign normalization
`transaction.amount > 0 ? -Math.abs(transaction.amount) : transaction.amount`. -/
def normalizeSign (a : ℚ) : ℚ := if a > 0 then -a else a

/-- The category coercion: keep the supplied category when it is a member of
`CATEGORIES`, otherwise `Miscellaneous` (an absent category is likewise not
a member). -/
def normalizeCategory (c : Option String) : String :=
  match c with
  | some cat => if cat ∈ CATEGORIES then cat else "Miscellaneous"
  | none => "Miscellaneous"

/-- The per-entry body of the `rawTransactions.forEach` validation loop at
0-based position `i`: `none` models the silent early `return` that drops the
entry (missing/empty date or description, non-numeric amount, or a
malformed date). -/
def validateEntry (i : ℕ) (e : RawEntry) : Option Transaction :=
  match e.date, e.description, e.amount with
  | some d, some desc, some a =>
    if d = "" || desc = "" then none
    else if dateFormatOk d then
      some { id := match e.id with
               | some s => if s ≠ "" then s else defaultId i
               | none => defaultId i,
             date := d,
             description := trimmed desc,
             amount := round2 (normalizeSign a),
             category := normalizeCategory e.category,
             confidence := normalizeConfidence e.confidence }
    else none
  | _, _, _ => none

/-- The whole validation loop: each entry is validated at its original
array position; dropped entries leave no trace in the output. -/
def validTransactions (entries : List RawEntry) : List Transaction :=
  entries.enum.filterMap (fun p => validateEntry p.1 p.2)

/-- The per-category summary of the handler: for every category of
`CATEGORIES`, the sum of `Math.abs(amount)` over the transactions assigned
to it, rounded to two decimals in the follow-up loop. -/
def summaryFor (ts : List Transaction) : List (String × ℚ) :=
  CATEGORIES.map (fun c =>
    (c, round2 (((ts.filter (fun t => t.category = c)).map (fun t => |t.amount|)).sum)))

/-- `totalAmount` of the handler: the rounded sum of `Math.abs(amount)`
over all transactions. -/
def totalAmountFor (ts : List Transaction) : ℚ :=
  round2 ((ts.map (fun t => |t.amount|)).sum)

/-! ## JSON extraction step of the validator (part_006 lines 211-226)

The handler first matches `/\{[\s\S]*\}/` against the response text (the
substring from the first `{` to the last `}` when both exist in that
order), and runs `JSON.parse` on the match; only when there is *no* match
does it run `JSON.parse` on the whole response. A thrown parse error in
either case lands in the surrounding `catch`, which reports the parse
failure. `JSON.parse` success is modelled by a strict JSON syntax checker. -/

/-- Index of the first character satisfying `p`. -/
def idxOfFirst (p : Char → Bool) : List Char → Option ℕ
  | [] => none
  | c :: t => if p c then some 0 else (idxOfFirst p t).map (· + 1)

/-- The match of `/\{[\s\S]*\}/`: from the first `{` to the last `}`, when
the latter comes after the former. -/
def braceSub (l : List Char) : Option (List Char) :=
  match idxOfFirst (· = '{') l, (idxOfFirst (· = '}') l.reverse).map
      (fun k => l.length - 1 - k) with
  | some i, some j => if i < j then some ((l.drop i).take (j - i + 1)) else none
  | _, _ => none

/-- JSON whitespace. -/
def isJsonWs (c : Char) : Bool := c = ' ' || c = '\t' || c = '\n' || c = '\r'

/-- Skip JSON whitespace. -/
def skipWsJ (l : List Char) : List Char := l.dropWhile isJsonWs

/-- ASCII hex digit. -/
def isHexC (c : Char) : Bool :=
  c.isDigit || ('a' ≤ c && c ≤ 'f') || ('A' ≤ c && c ≤ 'F')

/-- Consume the remainder of a JSON string after the opening quote. -/
def jStrRest : ℕ → List Char → Option (List Char)
  | 0, _ => none
  | _, [] => none
  | fuel + 1, c :: t =>
    if c = '"' then some t
    else if c = '\\' then
      match t with
      | e :: t2 =>
        if e = '"' || e = '\\' || e = '/' || e = 'b' || e = 'f' || e = 'n' ||
           e = 'r' || e = 't' then jStrRest fuel t2
        else if e = 'u' then
          match t2 with
          | a :: b :: c2 :: d :: t3 =>
            if isHexC a && isHexC b && isHexC c2 && isHexC d then jStrRest fuel t3
            else none
          | _ => none
        else none
      | [] => none
    else if c.toNat < 32 then none
    else jStrRest fuel t

/-- Consume a strict JSON number (`-? (0 | [1-9][0-9]*) frac? exp?`). -/
def jNum (l : List Char) : Option (List Char) :=
  let l1 := match l with
    | '-' :: t => t
    | _ => l
  match l1 with
  | '0' :: t => fracExp t
  | c :: t =>
    if isDigitC c && c ≠ '0' then fracExp (t.dropWhile isDigitC) else none
  | [] => none
where
  expPart (l : List Char) : Option (List Char) :=
    match l with
    | e :: t =>
      if e = 'e' || e = 'E' then
        let t2 := match t with
          | s :: t3 => if s = '+' || s = '-' then t3 else t
          | [] => t
        match t2 with
        | d :: _ =>
          if isDigitC d then some (t2.dropWhile isDigitC) else none
        | [] => none
      else some l
    | [] => some l
  fracExp (l : List Char) : Option (List Char) :=
    match l with
    | '.' :: t =>
      match t with
      | d :: _ => if isDigitC d then expPart (t.dropWhile isDigitC) else none
      | [] => none
    | _ => expPart l

/-- Consume a literal keyword (`true` / `false` / `null` tails). -/
def jLit (lit : String) (l : List Char) : Option (List Char) :=
  if prefOf lit.data l then some (l.drop lit.data.length) else none

mutual

/-- Consume one JSON value (leading whitespace allowed). -/
def jVal : ℕ → List Char → Option (List Char)
  | 0, _ => none
  | fuel + 1, l =>
    match skipWsJ l with
    | [] => none
    | '{' :: t => jObj fuel (skipWsJ t)
    | '[' :: t => jArr fuel (skipWsJ t)
    | '"' :: t => jStrRest (t.length + 1) t
    | 't' :: t => jLit "rue" t
    | 'f' :: t => jLit "alse" t
    | 'n' :: t => jLit "ull" t
    | l2 => jNum l2

/-- After `{` and whitespace: members or an immediate `}`. -/
def jObj : ℕ → List Char → Option (List Char)
  | 0, _ => none
  | fuel + 1, l =>
    match l with
    | '}' :: t => some t
    | _ => jMembers fuel l

/-- One or more `"key" : value` members separated by commas, then `}`. -/
def jMembers : ℕ → List Char → Option (List Char)
  | 0, _ => none
  | fuel + 1, l =>
    match l with
    | '"' :: t =>
      match jStrRest (t.length + 1) t with
      | some r1 =>
        match skipWsJ r1 with
        | ':' :: t2 =>
          match jVal fuel t2 with
          | some r2 =>
            match skipWsJ r2 with
            | ',' :: t3 => jMembers fuel (skipWsJ t3)
            | '}' :: t3 => some t3
            | _ => none
          | none => none
        | _ => none
      | none => none
    | _ => none

/-- After `[` and whitespace: items or an immediate `]`. -/
def jArr : ℕ → List Char → Option (List Char)
  | 0, _ => none
  | fuel + 1, l =>
    match l with
    | ']' :: t => some t
    | _ => jItems fuel l

/-- One or more values separated by commas, then `]`. -/
def jItems : ℕ → List Char → Option (List Char)
  | 0, _ => none
  | fuel + 1, l =>
    match jVal fuel l with
    | some r =>
      match skipWsJ r with
      | ',' :: t => jItems fuel t
      | ']' :: t => some t
      | _ => none
    | none => none

end

/-- Whether `JSON.parse` accepts the text: one value, with nothing but
whitespace after it. The fuel only bounds the recursion depth of the
checker; at most three fuel units are spent per consumed input character,
so `3 * length + 9` always suffices. -/
def jsonAccepted (l : List Char) : Bool :=
  match jVal (3 * l.length + 9) l with
  | some rest => skipWsJ rest = []
  | none => false

/-- The parse step of the handler: parse the brace-match when there is one,
and only otherwise the whole response text. `true` models reaching the
validation loop, `false` the `catch` branch that reports
"Failed to parse AI response". -/
def aiParseOk (responseText : String) : Bool :=
  match braceSub responseText.data with
  | some sub => jsonAccepted sub
  | none => jsonAccepted responseText.data

/-! ## Specification-side decompositions used to state the claims -/

/-- The well-formedness test of one candidate entry: the conditions under
which the validation loop does *not* early-return. -/
def entryOk (e : RawEntry) : Bool :=
  jsTruthy e.date && jsTruthy e.description && e.amount.isSome &&
  (match e.date with
   | some d => dateFormatOk d
   | none => false)

/-- The record built from a well-formed entry at array position `i` (the
`getD` defaults are never reached for well-formed entries). -/
def buildTxn (i : ℕ) (e : RawEntry) : Transaction :=
  { id := match e.id with
      | some s => if s ≠ "" then s else defaultId i
      | none => defaultId i,
    date := e.date.getD "",
    description := trimmed (e.description.getD ""),
    amount := round2 (normalizeSign (e.amount.getD 0)),
    category := normalizeCategory e.category,
    confidence := normalizeConfidence e.confidence }

/-- A rational that is a whole number of cents, as every amount emitted by
the validator is after its 2-decimal rounding. -/
def Cent (x : ℚ) : Prop := ∃ n : ℤ, x = (n : ℚ) / 100

/-! ## Helper lemmas -/

theorem validateEntry_eq (i : ℕ) (e : RawEntry) :
    validateEntry i e = if entryOk e then some (buildTxn i e) else none := by
  rcases e with ⟨eid, dt, ds, am, ct, cf⟩
  cases dt <;> cases ds <;> cases am <;>
    simp [validateEntry, entryOk, buildTxn, jsTruthy]
  split_ifs <;> simp_all

theorem filterMap_eq_filter_map {α β : Type} (f : α → Option β) (p : α → Bool)
    (g : α → β) (h : ∀ a, f a = if p a then some (g a) else none) :
    ∀ l : List α, l.filterMap f = (l.filter p).map g := by
  intro l
  induction l with
  | nil => simp
  | cons a t ih =>
    by_cases hp : p a <;>
      simp [List.filterMap_cons, List.filter_cons, h a, hp, ih]

theorem validateEntry_some {i : ℕ} {e : RawEntry} {t : Transaction}
    (h : validateEntry i e = some t) : t = buildTxn i e := by
  rw [validateEntry_eq] at h
  split at h
  · exact (Option.some_injective _ h).symm
  · exact absurd h (by simp)

theorem mem_validTransactions {entries : List RawEntry} {t : Transaction}
    (h : t ∈ validTransactions entries) : ∃ i e, validateEntry i e = some t := by
  obtain ⟨⟨i, e⟩, _, he⟩ := List.mem_filterMap.mp h
  exact ⟨i, e, he⟩

theorem cent_round2 (x : ℚ) : Cent (round2 x) := ⟨jsRound (x * 100), rfl⟩

theorem round2_of_cent {x : ℚ} (h : Cent x) : round2 x = x := by
  obtain ⟨n, rfl⟩ := h
  unfold round2 jsRound
  rw [div_mul_cancel₀ (b := (100 : ℚ)) _ (by norm_num)]
  have hfl : ⌊(n : ℚ) + 1 / 2⌋ = n := by
    rw [add_comm, Int.floor_add_int]
    norm_num [Int.floor_eq_zero_iff]
  rw [hfl]

theorem cent_zero : Cent 0 := ⟨0, by norm_num⟩

theorem cent_add {x y : ℚ} (hx : Cent x) (hy : Cent y) : Cent (x + y) := by
  obtain ⟨n, rfl⟩ := hx
  obtain ⟨m, rfl⟩ := hy
  exact ⟨n + m, by push_cast; ring⟩

theorem cent_abs {x : ℚ} (hx : Cent x) : Cent |x| := by
  obtain ⟨n, rfl⟩ := hx
  exact ⟨|n|, by rw [abs_div]; push_cast; norm_num⟩

theorem cent_sum {α : Type} (f : α → ℚ) :
    ∀ l : List α, (∀ a ∈ l, Cent (f a)) → Cent ((l.map f).sum) := by
  intro l
  induction l with
  | nil => intro _; simpa using cent_zero
  | cons a t ih =>
    intro h
    simp only [List.map_cons, List.sum_cons]
    exact cent_add (h a (List.mem_cons_self a t))
      (ih fun b hb => h b (List.mem_cons_of_mem a hb))

theorem normalizeSign_nonpos (a : ℚ) : normalizeSign a ≤ 0 := by
  unfold normalizeSign
  split_ifs with h
  · linarith
  · linarith [not_lt.mp h]

theorem round2_nonpos {x : ℚ} (h : x ≤ 0) : round2 x ≤ 0 := by
  unfold round2 jsRound
  have h1 : x * 100 + 1 / 2 ≤ 1 / 2 := by linarith
  have h2 : ⌊x * 100 + 1 / 2⌋ ≤ ⌊(1 : ℚ) / 2⌋ := Int.floor_le_floor h1
  have h3 : ⌊(1 : ℚ) / 2⌋ = 0 := by norm_num [Int.floor_eq_zero_iff]
  have h4 : (⌊x * 100 + 1 / 2⌋ : ℚ) ≤ 0 := by
    exact_mod_cast h3 ▸ h2
  exact div_nonpos_of_nonpos_of_nonneg h4 (by norm_num)

theorem buildTxn_amount_nonpos (i : ℕ) (e : RawEntry) : (buildTxn i e).amount ≤ 0 :=
  round2_nonpos (normalizeSign_nonpos _)

theorem normalizeCategory_mem (c : Option String) : normalizeCategory c ∈ CATEGORIES := by
  unfold normalizeCategory
  cases c with
  | none => simp [CATEGORIES]
  | some cat =>
    simp only []
    split_ifs with h
    · exact h
    · simp [CATEGORIES]

theorem emitted_amount_nonpos {entries : List RawEntry} {t : Transaction}
    (h : t ∈ validTransactions entries) : t.amount ≤ 0 := by
  obtain ⟨i, e, he⟩ := mem_validTransactions h
  rw [validateEntry_some he]
  exact buildTxn_amount_nonpos i e

theorem emitted_amount_cent {entries : List RawEntry} {t : Transaction}
    (h : t ∈ validTransactions entries) : Cent t.amount := by
  obtain ⟨i, e, he⟩ := mem_validTransactions h
  rw [validateEntry_some he]
  exact cent_round2 _

theorem emitted_category_mem {entries : List RawEntry} {t : Transaction}
    (h : t ∈ validTransactions entries) : t.category ∈ CATEGORIES := by
  obtain ⟨i, e, he⟩ := mem_validTransactions h
  rw [validateEntry_some he]
  exact normalizeCategory_mem _

theorem filter_abs_partition :
    ∀ ts : List Transaction, (∀ t ∈ ts, t.category ∈ CATEGORIES) →
      (CATEGORIES.map (fun c =>
        ((ts.filter (fun t => t.category = c)).map (fun t => |t.amount|)).sum)).sum
        = (ts.map (fun t => |t.amount|)).sum := by
  intro ts
  induction ts with
  | nil => simp
  | cons t ts ih =>
    intro h
    have h1 : t.category ∈ CATEGORIES := h t (List.mem_cons_self t ts)
    have h2 := ih fun u hu => h u (List.mem_cons_of_mem t hu)
    simp only [CATEGORIES, List.mem_cons, List.not_mem_nil, or_false] at h1
    rcases h1 with h1 | h1 | h1 | h1 | h1 | h1 <;>
      · simp only [CATEGORIES, List.map_cons, List.sum_cons, List.filter_cons, h1,
          List.map_nil, List.sum_nil] at h2 ⊢
        simp only [decide_eq_true_eq, if_true, if_false, String.reduceEq, reduceIte]
        simp only [List.map_cons, List.sum_cons]
        linarith

theorem finalConfidence_bounds (score : ℚ) :
    2 / 5 ≤ finalConfidence score ∧ finalConfidence score ≤ 1 := by
  unfold finalConfidence
  dsimp only
  have hle1 : min (score / 2) 1 ≤ 1 := min_le_right _ _
  split_ifs with h
  · constructor
    · calc (2 : ℚ) / 5 ≤ 7 / 10 := by norm_num
        _ ≤ max (min (score / 2) 1) (7 / 10) := le_max_right _ _
    · exact max_le hle1 (by norm_num)
  · constructor
    · exact le_max_right _ _
    · exact max_le hle1 (by norm_num)

theorem normalizeConfidence_cases (c : Option ℚ) :
    normalizeConfidence c =
      (match c with
       | some v => if v ≠ 0 then min (max v (1 / 2)) 1 else 4 / 5
       | none => 4 / 5) := by
  unfold normalizeConfidence
  cases c with
  | none => norm_num
  | some v =>
    by_cases hv : v = 0
    · simp only [hv, ne_eq, not_true_eq_false, if_false]
      norm_num
    · simp [hv]

/-- Whether a character list contains a non-whitespace character. -/
def hasInk (l : List Char) : Bool := l.any (fun c => !isWsC c)

theorem dropWhile_ws_of_hasInk {l : List Char} (h : hasInk l = true) :
    l.dropWhile isWsC ≠ [] ∧ hasInk (l.dropWhile isWsC) = true := by
  induction l with
  | nil => simp [hasInk] at h
  | cons c t ih =>
    by_cases hc : isWsC c
    · have ht : hasInk t = true := by
        simp only [hasInk, List.any_cons, hc, Bool.not_true, Bool.false_or] at h
        exact h
      simpa [List.dropWhile_cons, hc] using ih ht
    · refine ⟨by simp [List.dropWhile_cons, hc], ?_⟩
      simp [List.dropWhile_cons, hc, hasInk]

theorem hasInk_reverse (l : List Char) : hasInk l.reverse = hasInk l := by
  simp [hasInk, List.any_eq_true, List.mem_reverse]

theorem trimL_ne_nil {l : List Char} (h : hasInk l = true) : trimL l ≠ [] := by
  unfold trimL dropWs
  obtain ⟨_, h2⟩ := dropWhile_ws_of_hasInk h
  rw [← hasInk_reverse] at h2
  obtain ⟨h3, _⟩ := dropWhile_ws_of_hasInk h2
  simpa using h3

theorem hasInk_collapseAux (l : List Char) :
    ∀ b : Bool, hasInk (collapseWsAux b l) = hasInk l := by
  induction l with
  | nil => intro b; rfl
  | cons c t ih =>
    intro b
    have hsp : isWsC ' ' = true := rfl
    by_cases hc : isWsC c
    · cases b <;> simp [collapseWsAux, hc, hasInk, hsp, ih] <;> exact ih true
    · simp [collapseWsAux, hc, hasInk, ih]

theorem parseAmountToken_nonneg (l : List Char) : 0 ≤ parseAmountToken l := by
  unfold parseAmountToken
  dsimp only
  split
  · positivity
  · positivity

/-! ## The claims -/

/-- Claim C1, counterexample: the line-parsing path emits a record with a
strictly positive amount. On the statement line
`Jul 11 INTERNET TRANSFER 000000129961 118.21` (taken from the source's own
sample data) the parser emits exactly one record, its amount is `+118.21`,
and `118.21 < 0` is false — so not every emitted record has `amount < 0`. -/
theorem claim1_counterexample :
    (parseTransactionText 2025 "Jul 11 INTERNET TRANSFER 000000129961 118.21").map
        RawTransaction.amount = [(11821 : ℚ) / 100] ∧
    ¬((11821 : ℚ) / 100 < 0) := by decide!

/-- Claim C1 (amended): the AI-response validation path emits only records
with `amount ≤ 0` (an entry whose amount field equals `0` is emitted with
amount `0`, not excluded), and the local line-parsing path guarantees only
`amount ≠ 0` (positive amounts pass its final filter). -/
theorem claim1_amended :
    (∀ (entries : List RawEntry) (t : Transaction),
        t ∈ validTransactions entries → t.amount ≤ 0) ∧
    (∀ (currentYear : ℕ) (text : String) (t : RawTransaction),
        t ∈ parseTransactionText currentYear text → t.amount ≠ 0) := by
  constructor
  · intro entries t ht
    exact emitted_amount_nonpos ht
  · intro currentYear text t ht
    exact of_decide_eq_true (List.mem_filter.mp ht).2

/-- Claim C1, witness: the amended theorem applied to a concrete
one-entry batch on the validator path. -/
theorem claim1_witness :
    ({ id := "txn_001", date := "2025-07-14", description := "A", amount := -10,
       category := "Groceries", confidence := 4 / 5 } : Transaction).amount ≤ 0 :=
  claim1_amended.1
    [{ date := some "2025-07-14", description := some "A",
       amount := some 10, category := some "Groceries" }]
    _ (by decide!)

/-- Claim C2, counterexample: on the line
`Jul 14 PREAUTHORIZED DEBIT TOYOTA FINANCE 254.18` with current year 2025,
the parser's single record has date `2025-01-14` (the date regex matches
`14 PRE`, and the unknown month name falls back to month 1), not
`2025-07-14`, and amount `+254.18` (the debit test is case-sensitive and
`DEBIT` does not match `Debit`), not `-254.18`. -/
theorem claim2_counterexample :
    (parseTransactionText 2025 "Jul 14 PREAUTHORIZED DEBIT TOYOTA FINANCE 254.18").map
        RawTransaction.date = ["2025-01-14"] ∧
    (parseTransactionText 2025 "Jul 14 PREAUTHORIZED DEBIT TOYOTA FINANCE 254.18").map
        RawTransaction.amount = [(12709 : ℚ) / 50] ∧
    ("2025-01-14" : String) ≠ "2025-07-14" ∧
    ((12709 : ℚ) / 50) ≠ -((12709 : ℚ) / 50) := by decide!

/-- Claim C2 (amended): on the line
`Jul 14 PREAUTHORIZED DEBIT TOYOTA FINANCE 254.18` with current year 2025,
the parser produces exactly one record, whose date is `2025-01-14`, whose
description contains `TOYOTA FINANCE`, and whose amount is `+254.18`. -/
theorem claim2_amended :
    parseTransactionText 2025 "Jul 14 PREAUTHORIZED DEBIT TOYOTA FINANCE 254.18" =
      [{ date := "2025-01-14",
         description := "Jul 14 PREAUTHORIZED DEBIT TOYOTA FINANCE",
         amount := (12709 : ℚ) / 50 }] ∧
    jsIncludes "Jul 14 PREAUTHORIZED DEBIT TOYOTA FINANCE" "TOYOTA FINANCE" = true ∧
    (0 : ℚ) < (12709 : ℚ) / 50 := by decide!

/-- Claim C3, counterexample: the line `DEBIT PIZZA 20.00` contains the
debit indicator `Debit` in upper-case letter casing, yet the extracted
amount is `+20`, not negated — the matching is not case-insensitive. -/
theorem claim3_counterexample :
    ciIncludes "DEBIT PIZZA 20.00" "Debit" = true ∧
    (extractDescriptionAndAmount "DEBIT PIZZA 20.00").2 = 20 ∧
    ¬((20 : ℚ) < 0) := by decide!

/-- Claim C3 (amended): for every line from which an amount token is
extracted, the amount equals the negated magnitude exactly when the
date-stripped line contains one of `Withdrawal`, `Debit`, `Purchase`,
`Payment` as an exact-case (case-sensitive) substring, and the unnegated
magnitude (which is nonnegative) otherwise. -/
theorem claim3_amended :
    ∀ (line : String) (tok : List Char),
      (findAmounts (stripLineDates line).data).getLast? = some tok →
      (extractDescriptionAndAmount line).2 =
        (if hasDebitIndicator (stripLineDates line) then -(parseAmountToken tok)
         else parseAmountToken tok) ∧
      0 ≤ parseAmountToken tok := by
  intro line tok h
  refine ⟨?_, parseAmountToken_nonneg tok⟩
  unfold extractDescriptionAndAmount
  simp only [h]

/-- Claim C3, witness: the amended theorem applied to the concrete line
`Withdrawal ATM 50.00`, whose last amount token is `50.00`. -/
theorem claim3_witness :
    (extractDescriptionAndAmount "Withdrawal ATM 50.00").2 =
      (if hasDebitIndicator (stripLineDates "Withdrawal ATM 50.00") then
        -(parseAmountToken "50.00".data)
       else parseAmountToken "50.00".data) ∧
    0 ≤ parseAmountToken "50.00".data :=
  claim3_amended "Withdrawal ATM 50.00" "50.00".data (by decide)

/-- Claim C4, counterexample: the response text `["{a}", "}"]` parses as
JSON in its entirety, its first-brace-to-last-brace substring
`{a}", "}` is not valid JSON, and the validator nevertheless signals a
parse failure — the whole-text parse is not attempted when a brace match
exists. -/
theorem claim4_counterexample :
    jsonAccepted "[\"\x7ba\x7d\", \"\x7d\"]".data = true ∧
    braceSub "[\"\x7ba\x7d\", \"\x7d\"]".data = some "\x7ba\x7d\", \"\x7d".data ∧
    jsonAccepted "\x7ba\x7d\", \"\x7d".data = false ∧
    aiParseOk "[\"\x7ba\x7d\", \"\x7d\"]" = false := by decide

/-- Claim C4 (amended): when the greedy brace match exists, its parse
result alone decides success — the whole response text is parsed only when
there is no brace match at all. -/
theorem claim4_amended :
    (∀ (s : String) (sub : List Char), braceSub s.data = some sub →
        aiParseOk s = jsonAccepted sub) ∧
    (∀ s : String, braceSub s.data = none → aiParseOk s = jsonAccepted s.data) := by
  constructor
  · intro s sub h
    unfold aiParseOk
    rw [h]
  · intro s h
    unfold aiParseOk
    rw [h]

/-- Claim C4, witness: the amended theorem applied to the concrete
response text `["{a}", "}"]` and its brace substring. -/
theorem claim4_witness :
    aiParseOk "[\"\x7ba\x7d\", \"\x7d\"]" = jsonAccepted "\x7ba\x7d\", \"\x7d".data :=
  claim4_amended.1 "[\"\x7ba\x7d\", \"\x7d\"]" "\x7ba\x7d\", \"\x7d".data (by decide)

/-- Claim C5, counterexample: the non-empty raw description
`Transfer sent` is normalized to the empty string (the boilerplate prefix
strip consumes the whole input), and its trimmed original is non-empty —
there is no fallback to the original trimmed text. -/
theorem claim5_counterexample :
    cleanDescription "Transfer sent" = "" ∧
    ("Transfer sent" : String) ≠ "" ∧
    trimmed "Transfer sent" = "Transfer sent" := by decide

/-- Claim C5 (amended): the normalizer's output is non-empty for every
input that contains a non-whitespace character and on which neither the
boilerplate-prefix strip nor the trailing-four-digit strip removes
anything; when stripping consumes all content the result is the empty
string, with no fallback to the original trimmed input. -/
theorem claim5_amended :
    ∀ s : String, hasInk s.data = true →
      dropBoilerplate (collapseWs s).data = (collapseWs s).data →
      dropTrailing4 (collapseWs s).data = (collapseWs s).data →
      cleanDescription s ≠ "" := by
  intro s h1 h2 h3
  unfold cleanDescription
  rw [h2, h3]
  have hink : hasInk (collapseWs s).data = true := by
    rw [show (collapseWs s).data = collapseWsAux false s.data from rfl,
      hasInk_collapseAux]
    exact h1
  intro hc
  exact trimL_ne_nil hink (congrArg String.data hc)

/-- Claim C5, witness: the amended theorem applied to the concrete
description `SAFEWAY STORE`. -/
theorem claim5_witness : cleanDescription "SAFEWAY STORE" ≠ "" :=
  claim5_amended "SAFEWAY STORE" (by decide) (by decide) (by decide)

/-- Claim C6, counterexample: an accepted entry carrying the numeric
confidence `0` is emitted with confidence `0.8` (the `||` default treats
`0` as absent), whereas clamping `0` into `[0.5, 1.0]` would give `0.5`. -/
theorem claim6_counterexample :
    (validateEntry 0
        { id := none, date := some "2025-01-02", description := some "X",
          amount := some (-1), category := some "Groceries",
          confidence := some 0 }).map Transaction.confidence = some (4 / 5) ∧
    min (max (0 : ℚ) (1 / 2)) 1 = 1 / 2 ∧
    ((4 : ℚ) / 5) ≠ 1 / 2 := by decide!

/-- Claim C6 (amended): for every accepted entry, the emitted confidence is
`min(max(c, 0.5), 1.0)` when the entry carries a numeric confidence
`c ≠ 0`, and exactly `0.8` when the confidence field is absent or equals
`0` (which JS `||` treats as absent). -/
theorem claim6_amended :
    ∀ (i : ℕ) (e : RawEntry) (t : Transaction), validateEntry i e = some t →
      t.confidence =
        (match e.confidence with
         | some c => if c ≠ 0 then min (max c (1 / 2)) 1 else 4 / 5
         | none => 4 / 5) := by
  intro i e t h
  rw [validateEntry_some h]
  show normalizeConfidence e.confidence = _
  exact normalizeConfidence_cases e.confidence

/-- Claim C6, witness: the amended theorem applied to a concrete accepted
entry with supplied confidence `1.5`, emitted clamped to `1`. -/
theorem claim6_witness :
    ({ id := "txn_001", date := "2025-07-14", description := "A", amount := -10,
       category := "Groceries", confidence := 1 } : Transaction).confidence =
      (match (some (3 / 2 : ℚ) : Option ℚ) with
       | some c => if c ≠ 0 then min (max c (1 / 2)) 1 else 4 / 5
       | none => 4 / 5) :=
  claim6_amended 0
    { date := some "2025-07-14", description := some "A",
      amount := some 10, category := some "Groceries", confidence := some (3 / 2) }
    _ (by decide!)

/-- Claim C7 (confirmed): for every batch, the summary keys are exactly the
fixed category set; each summary value is the 2-decimal rounding of the sum
of `abs(amount)` over the transactions of that category (`0` when none
match); and the summary values add up exactly to `totalAmount`, hence
within the `0.01` tolerance. -/
theorem claim7 :
    ∀ entries : List RawEntry,
      ((summaryFor (validTransactions entries)).map Prod.fst = CATEGORIES) ∧
      (∀ (c : String) (q : ℚ), (c, q) ∈ summaryFor (validTransactions entries) →
        q = round2 ((((validTransactions entries).filter
            (fun t => t.category = c)).map (fun t => |t.amount|)).sum)) ∧
      ((summaryFor (validTransactions entries)).map Prod.snd).sum
          = totalAmountFor (validTransactions entries) ∧
      |((summaryFor (validTransactions entries)).map Prod.snd).sum
          - totalAmountFor (validTransactions entries)| ≤ 1 / 100 := by
  intro entries
  have centElem : ∀ t ∈ validTransactions entries, Cent |t.amount| :=
    fun t ht => cent_abs (emitted_amount_cent ht)
  have centSub : ∀ c : String,
      Cent ((((validTransactions entries).filter
        (fun t => t.category = c)).map (fun t => |t.amount|)).sum) := by
    intro c
    exact cent_sum _ _ (fun t ht => centElem t (List.mem_of_mem_filter ht))
  have centAll : Cent (((validTransactions entries).map (fun t => |t.amount|)).sum) :=
    cent_sum _ _ centElem
  have hvals : (summaryFor (validTransactions entries)).map Prod.snd
      = CATEGORIES.map (fun c => round2 ((((validTransactions entries).filter
          (fun t => t.category = c)).map (fun t => |t.amount|)).sum)) := by
    simp [summaryFor, List.map_map, Function.comp]
  have hsum : ((summaryFor (validTransactions entries)).map Prod.snd).sum
      = totalAmountFor (validTransactions entries) := by
    rw [hvals]
    have hcongr : CATEGORIES.map (fun c => round2 ((((validTransactions entries).filter
          (fun t => t.category = c)).map (fun t => |t.amount|)).sum))
        = CATEGORIES.map (fun c => (((validTransactions entries).filter
          (fun t => t.category = c)).map (fun t => |t.amount|)).sum) :=
      List.map_congr_left (fun c _ => round2_of_cent (centSub c))
    rw [hcongr,
      filter_abs_partition (validTransactions entries) (fun t ht => emitted_category_mem ht)]
    unfold totalAmountFor
    rw [round2_of_cent centAll]
  refine ⟨?_, ?_, hsum, ?_⟩
  · simp [summaryFor, List.map_map, Function.comp_def]
  · intro c q hmem
    unfold summaryFor at hmem
    obtain ⟨c2, _, heq⟩ := List.mem_map.mp hmem
    rw [Prod.mk.injEq] at heq
    obtain ⟨rfl, rfl⟩ := heq
    rfl
  · rw [hsum]
    simp

/-- Claim C7, witness: the per-category value equation instantiated at a
concrete one-entry batch and the key `Groceries`. -/
theorem claim7_witness :
    (25 : ℚ) / 2 = round2 ((((validTransactions
        [{ date := some "2025-01-02", description := some "SAFEWAY",
           amount := some (25 / 2 : ℚ), category := some "Groceries" }]).filter
      (fun t => t.category = "Groceries")).map (fun t => |t.amount|)).sum) :=
  (claim7
      [{ date := some "2025-01-02", description := some "SAFEWAY",
         amount := some (25 / 2 : ℚ), category := some "Groceries" }]).2.1
    "Groceries" ((25 : ℚ) / 2) (by decide!)

/-- Claim C8 (confirmed): for every description, the returned confidence is
the floored normalization of the winning score — `min(score / 2, 1)`
raised to at least `0.7` when above `0.5` and to at least `0.4` otherwise —
and therefore always lies in `[0.4, 1.0]`. -/
theorem claim8 :
    ∀ description : String,
      (classifyTransaction description).confidence
          = finalConfidence (winningScore (trimmed (lowered description))) ∧
      2 / 5 ≤ (classifyTransaction description).confidence ∧
      (classifyTransaction description).confidence ≤ 1 := by
  intro description
  refine ⟨rfl, ?_, ?_⟩
  · exact (finalConfidence_bounds (winningScore (trimmed (lowered description)))).1
  · exact (finalConfidence_bounds (winningScore (trimmed (lowered description)))).2

/-- Claim C9 (confirmed): the validated output of every candidate array is
exactly the well-formed entries — those with truthy `date` and
`description`, a numeric `amount`, and a `YYYY-MM-DD` date — validated at
their original positions and in their original order; an entry failing one
of those checks produces `none` (a silent drop, not an error) and leaves
the processing of its siblings unchanged. -/
theorem claim9 :
    (∀ entries : List RawEntry,
      validTransactions entries =
        (entries.enum.filter (fun p => entryOk p.2)).map (fun p => buildTxn p.1 p.2)) ∧
    (∀ (i : ℕ) (e : RawEntry), entryOk e = false → validateEntry i e = none) := by
  constructor
  · intro entries
    unfold validTransactions
    exact filterMap_eq_filter_map _ _ _
      (fun (p : ℕ × RawEntry) => validateEntry_eq p.1 p.2) _
  · intro i e h
    rw [validateEntry_eq, h]
    rfl

/-- Claim C9, witness: an entry with a missing description is dropped
(`none`), by the second part of the theorem at a concrete entry. -/
theorem claim9_witness :
    validateEntry 0
      { id := none, date := some "2025-01-02", description := none,
        amount := some (-1), category := some "Groceries", confidence := none } = none :=
  claim9.2 0
    { id := none, date := some "2025-01-02", description := none,
      amount := some (-1), category := some "Groceries", confidence := none }
    (by decide)

/-- Claim C10 (confirmed): on a whitespace-only (or empty) description the
classifier does not fall back to `Miscellaneous` with low confidence: the
single empty token partial-matches every keyword, so every category scores
`0.3` per keyword, and the result is the category with the most keywords in
the training table — `Living Expenses` — with confidence `1`. -/
theorem claim10 :
    ∀ description : String, trimmed (lowered description) = "" →
      classifyTransaction description =
          { category := "Living Expenses", confidence := 1 } ∧
      (∀ c ∈ categoryOrder,
        categoryScore "" (splitWsTokens "") c = 3 / 10 * (keywordCount c : ℚ)) ∧
      (∀ c ∈ categoryOrder, c ≠ "Living Expenses" →
        keywordCount c < keywordCount "Living Expenses") := by
  intro description h
  have hc : classifyTransaction description = classifyCore "" := by
    unfold classifyTransaction
    rw [h]
  refine ⟨?_, by decide!, by decide⟩
  rw [hc]
  decide!

/-- Claim C10, witness: the theorem applied to the concrete whitespace-only
description consisting of a space and a tab. -/
theorem claim10_witness :
    classifyTransaction " \t " = { category := "Living Expenses", confidence := 1 } :=
  (claim10 " \t " (by decide)).1

end InvestApp
